import Mathlib

/-!
A verification development for the treemendous tree editor core
(`src/tree.py`).  The Python data model and operations are shallowly
embedded as executable Lean definitions, and the behavioural claims of
the specification are settled as theorems about those definitions.

Conventions used throughout:
* Python `None` becomes `Option.none`; optional strings become `Option String`.
* Python exceptions become `Option`/`Except` results (`none`/`.error` means
  the call raised).
* Python object identity is modelled, where parent back-references matter,
  by a store mapping numeric object ids to node data (see `Store` below).
-/

namespace Treemendous

/-- The nested record produced by `Node.to_dict` and consumed by
`Node.from_dict`: optional label, optional value, and an optional list of
child records (a missing `children` key reads as the empty list, matching
`data.get` with a default). -/
inductive Dict where
| mk (label : Option String) (value : Option String) (children : Option (List Dict))

/-- A pure value view of a Python `Node`: label, value and ordered
children.  The `parent` back-reference is implicit in this view (it is
modelled explicitly by the `Store` embedding further below where the
claims need it). -/
inductive Node where
| mk (label : Option String) (value : Option String) (children : List Node)

def Node.label : Node → Option String
| .mk l _ _ => l

def Node.value : Node → Option String
| .mk _ v _ => v

def Node.children : Node → List Node
| .mk _ _ cs => cs

mutual

/-- `Node.to_dict`: the record has the label, the value, and the list of
the children's records (the `children` key is always present). -/
def Node.to_dict : Node → Dict
| .mk l v cs => Dict.mk l v (some (to_dictList cs))

def to_dictList : List Node → List Dict
| [] => []
| c :: cs => Node.to_dict c :: to_dictList cs

end

mutual

/-- `Node.from_dict`: reads `label` and `value` with `data.get` (missing
means absent) and rebuilds the children in order via `add_child`; a
missing `children` key defaults to the empty list. -/
def from_dict : Dict → Node
| .mk l v none => Node.mk l v []
| .mk l v (some cs) => Node.mk l v (from_dictList cs)

def from_dictList : List Dict → List Node
| [] => []
| d :: ds => from_dict d :: from_dictList ds

end

mutual

theorem from_dict_to_dict_aux : ∀ n : Node, from_dict (Node.to_dict n) = n
| .mk l v cs => by
  rw [Node.to_dict, from_dict, from_dictList_to_dictList_aux cs]

theorem from_dictList_to_dictList_aux :
    ∀ l : List Node, from_dictList (to_dictList l) = l
| [] => rfl
| c :: cs => by
  rw [to_dictList, from_dictList, from_dict_to_dict_aux c,
    from_dictList_to_dictList_aux cs]

end

/-- C1: decoding the record produced by encoding any tree yields a tree
identical to the original: same labels, same values, same child order,
with absent label/value decoded as absent. -/
theorem c1_round_trip (n : Node) : from_dict (Node.to_dict n) = n :=
  from_dict_to_dict_aux n

/-! ## The markup translator (`GVParser`)

The stdlib HTML tokenizer (an external collaborator) turns an input
string into a stream of start-tag, end-tag and data events; the class
overrides the three handlers.  We embed the handler logic over that
event stream.  Stacks (`deque` used via `append`/`pop` on the right)
are modelled as lists with the top at the head. -/

def TEX_MAP : List (String × String) :=
  [("b", "\\textbf\x7b"), ("i", "\\textit\x7b"), ("u", "\\underline\x7b"),
   ("sup", "^\x7b"), ("sub", "_\x7b"), ("null", "\x7b\\O"),
   ("bar", "^\x7b\\prime")]

def MATHMODE_REQUIRED : List String := ["sup", "sub", "null", "bar"]

def SPECIALS : List String := ["null", "bar"]

/-- Python `str.capitalize`: first character upper-cased, the rest
lower-cased. -/
def capitalize (s : String) : String :=
  match s.data with
  | [] => ""
  | c :: cs => String.mk (c.toUpper :: cs.map Char.toLower)

structure GVState where
  valid : Bool
  tag_stack : List String
  math_stack : List String
  tex : String
  data : String
deriving DecidableEq

/-- The state installed by `GVParser.reset`. -/
def initGV : GVState :=
  { valid := true, tag_stack := [], math_stack := [], tex := "", data := "" }

def handle_starttag (st : GVState) (tag : String)
    (attrs : List (String × String)) : GVState :=
  let st1 := if attrs ≠ [] then { st with valid := false } else st
  let st2 :=
    match TEX_MAP.lookup tag with
    | none => { st1 with valid := false, tex := st1.tex ++ "<" ++ tag ++ ">" }
    | some code =>
      let a := { st1 with tag_stack := tag :: st1.tag_stack }
      let b :=
        if MATHMODE_REQUIRED.contains tag then
          let a1 := if a.math_stack.isEmpty then { a with tex := a.tex ++ "$" } else a
          { a1 with math_stack := tag :: a1.math_stack }
        else a
      { b with tex := b.tex ++ code }
  if SPECIALS.contains tag then { st2 with data := st2.data ++ capitalize tag }
  else st2

/-- `GVParser.handle_endtag`.  The pop of the tag stack is guarded by a
`try`/`except IndexError` in the source, but the pop of the math stack is
not: `none` models that uncaught `IndexError` escaping to the caller. -/
def handle_endtag (st : GVState) (tag : String) : Option GVState :=
  let st1 :=
    match st.tag_stack with
    | [] => { st with valid := false }
    | t :: rest => { st with valid := (TEX_MAP.lookup t).isSome, tag_stack := rest }
  let st2 :=
    if (TEX_MAP.lookup tag).isSome then { st1 with tex := st1.tex ++ "\x7d" }
    else { st1 with tex := st1.tex ++ "</" ++ tag ++ ">" }
  if MATHMODE_REQUIRED.contains tag then
    match st2.math_stack with
    | [] => none
    | _ :: rest =>
      let st3 := { st2 with math_stack := rest }
      some (if rest.isEmpty then { st3 with tex := st3.tex ++ "$" } else st3)
  else some st2

def handle_data (st : GVState) (s : String) : GVState :=
  { st with tex := st.tex ++ s, data := st.data ++ s }

/-- One tokenizer event delivered to the parser's handlers. -/
inductive Event where
| starttag (tag : String) (attrs : List (String × String))
| endtag (tag : String)
| dataEv (s : String)

def feedEvent (st : GVState) (e : Event) : Option GVState :=
  match e with
  | .starttag t a => some (handle_starttag st t a)
  | .endtag t => handle_endtag st t
  | .dataEv s => some (handle_data st s)

def feedAll (st : GVState) (evs : List Event) : Option GVState :=
  evs.foldlM feedEvent st

/-- `GVParser.close`: leftover open tags invalidate the input. -/
def closeGV (st : GVState) : GVState :=
  if st.tag_stack.isEmpty then st else { st with valid := false }

/-- A full run: reset, feed every event of the input, close.  `none`
means an exception escaped to the caller. -/
def runGV (evs : List Event) : Option GVState :=
  (feedAll initGV evs).map closeGV

/-- C2: the translator is claimed never to raise, but feeding the input
string consisting of the single close tag of a math-requiring tag (the
tokenizer delivers one end-tag event for it) pops the empty math stack
outside the guarding try/except and the IndexError escapes: the run
aborts instead of merely setting the valid flag. -/
theorem c2_endtag_crash : runGV [Event.endtag "sup"] = none := by decide

/-- C5: a close tag that does not match the top of the open-tag stack is
claimed to leave the valid flag false at the end, but the code only tests
that the popped tag is recognized (which every pushed tag is), so the
mismatched input of an open bold tag followed by an italic close tag ends
the run fully valid. -/
theorem c5_mismatch_still_valid :
    (runGV [Event.starttag "b" [], Event.endtag "i"]).map GVState.valid
      = some true := by decide

/-- C7: math-mode delimiters follow depth-counter semantics: a
math-requiring start tag pushes onto the math stack and emits the opening
delimiter exactly when the stack was empty; a math-requiring end tag pops
the stack and emits the closing delimiter exactly when the stack empties;
and a concretely nested run (sup around sub) shares a single pair of
delimiters. -/
theorem c7_math_delimiters :
    (∀ (st : GVState) (t : String), t ∈ MATHMODE_REQUIRED →
      (handle_starttag st t []).tex
          = (if st.math_stack.isEmpty
              then st.tex ++ "$" ++ ((TEX_MAP.lookup t).getD "")
              else st.tex ++ ((TEX_MAP.lookup t).getD ""))
        ∧ (handle_starttag st t []).math_stack = t :: st.math_stack)
    ∧ (∀ (st : GVState) (t m : String) (rest : List String),
        t ∈ MATHMODE_REQUIRED → st.math_stack = m :: rest →
        ∃ st2, handle_endtag st t = some st2
          ∧ st2.tex = (if rest.isEmpty then st.tex ++ "\x7d" ++ "$"
              else st.tex ++ "\x7d")
          ∧ st2.math_stack = rest)
    ∧ runGV [Event.starttag "sup" [], Event.starttag "sub" [],
        Event.dataEv "x", Event.endtag "sub", Event.endtag "sup"]
        = some { valid := true, tag_stack := [], math_stack := [],
                 tex := "$^\x7b_\x7bx\x7d\x7d$", data := "x" } := by
  refine ⟨?_, ?_, by decide⟩
  · rintro ⟨v, tags, maths, tex, data⟩ t ht
    have ht4 : t = "sup" ∨ t = "sub" ∨ t = "null" ∨ t = "bar" := by
      simpa [MATHMODE_REQUIRED] using ht
    rcases ht4 with rfl | rfl | rfl | rfl <;>
      cases maths <;>
        simp [handle_starttag, TEX_MAP, MATHMODE_REQUIRED, SPECIALS, capitalize,
          List.lookup]
  · rintro ⟨v, tags, maths, tex, data⟩ t m rest ht hm
    simp only at hm
    subst hm
    have ht4 : t = "sup" ∨ t = "sub" ∨ t = "null" ∨ t = "bar" := by
      simpa [MATHMODE_REQUIRED] using ht
    rcases ht4 with rfl | rfl | rfl | rfl <;>
      cases tags <;> cases rest <;>
        simp [handle_endtag, TEX_MAP, MATHMODE_REQUIRED, List.lookup]

/-- Witness for `c7_math_delimiters`: both universally quantified parts
applied at concrete states (the initial state for the start tag; a state
with one open math tag for the end tag), hypotheses discharged by
`decide` and `rfl`. -/
theorem c7_math_delimiters_witness :
    ("sup" ∈ MATHMODE_REQUIRED)
    ∧ ((handle_starttag initGV "sup" []).tex
          = (if initGV.math_stack.isEmpty
              then initGV.tex ++ "$" ++ ((TEX_MAP.lookup "sup").getD "")
              else initGV.tex ++ ((TEX_MAP.lookup "sup").getD ""))
        ∧ (handle_starttag initGV "sup" []).math_stack = "sup" :: initGV.math_stack)
    ∧ (∃ st2,
        handle_endtag
            { valid := true, tag_stack := ["sup"], math_stack := ["sup"],
              tex := "$^\x7b", data := "" } "sup" = some st2
          ∧ st2.tex = (if ([] : List String).isEmpty
              then "$^\x7b" ++ "\x7d" ++ "$" else "$^\x7b" ++ "\x7d")
          ∧ st2.math_stack = []) :=
  ⟨by decide,
    c7_math_delimiters.1 initGV "sup" (by decide),
    c7_math_delimiters.2.1
      { valid := true, tag_stack := ["sup"], math_stack := ["sup"],
        tex := "$^\x7b", data := "" } "sup" "sup" [] (by decide) rfl⟩

/-! ## Sibling reordering (`Tree._shift`, `Tree.move_up`, `Tree.move_down`)

`_shift` acts on the selection's parent's children list `t` as
`t.insert(old + direction, t.pop(old))`, where `old` is the selection's
index (found with `t.index`, always in range for a selected node).  We
embed Python's `list.pop` (raising on an out-of-range index) and
`list.insert` (whose negative indices count from the end, clamped at 0,
and whose large indices clamp to the length). -/

def insertPy {α : Type} (l : List α) (i : Int) (x : α) : List α :=
  let n := l.length
  let j : Nat := if i < 0 then ((n : Int) + i).toNat else min i.toNat n
  List.insertIdx j x l

def popPy {α : Type} (l : List α) (i : Nat) : Option (α × List α) :=
  match l[i]? with
  | none => none
  | some x => some (x, l.eraseIdx i)

/-- `Tree._shift` restricted to the children list: `none` is an escaping
exception (never hit for a selected child, whose index is in range). -/
def shift {α : Type} (t : List α) (old : Nat) (d : Int) : Option (List α) :=
  match popPy t old with
  | none => none
  | some (x, t1) => some (insertPy t1 ((old : Int) + d) x)

def move_up {α : Type} (t : List α) (old : Nat) : Option (List α) :=
  shift t old (-1)

def move_down {α : Type} (t : List α) (old : Nat) : Option (List α) :=
  shift t old 1

theorem insertIdx_length_prefix {α : Type} (pre : List α) (x : α)
    (suf : List α) : List.insertIdx pre.length x (pre ++ suf) = pre ++ x :: suf := by
  induction pre with
  | nil => rfl
  | cons a l ih => simpa using ih

theorem eraseIdx_length_prefix {α : Type} (pre : List α) (x : α)
    (suf : List α) : List.eraseIdx (pre ++ x :: suf) pre.length = pre ++ suf := by
  induction pre with
  | nil => rfl
  | cons a l ih => simpa using ih

theorem getElemQ_length_prefix {α : Type} (pre : List α) (x : α)
    (suf : List α) : (pre ++ x :: suf)[pre.length]? = some x := by
  induction pre with
  | nil => simp
  | cons a l ih => simpa using ih

theorem insertIdx_at_prefix {α : Type} (pre : List α) (x : α) (suf : List α)
    (i : Nat) (hi : i = pre.length) :
    List.insertIdx i x (pre ++ suf) = pre ++ x :: suf := by
  subst hi; exact insertIdx_length_prefix pre x suf

theorem eraseIdx_at_prefix {α : Type} (pre : List α) (x : α) (suf : List α)
    (i : Nat) (hi : i = pre.length) :
    List.eraseIdx (pre ++ x :: suf) i = pre ++ suf := by
  subst hi; exact eraseIdx_length_prefix pre x suf

theorem getElemQ_at_prefix {α : Type} (pre : List α) (x : α) (suf : List α)
    (i : Nat) (hi : i = pre.length) : (pre ++ x :: suf)[i]? = some x := by
  subst hi; exact getElemQ_length_prefix pre x suf

theorem shift_up_swap {α : Type} (pre : List α) (a b : α) (post : List α) :
    move_up (pre ++ a :: b :: post) (pre.length + 1) = some (pre ++ b :: a :: post) := by
  have e : pre ++ a :: b :: post = (pre ++ [a]) ++ b :: post := by simp
  have h1 : (pre ++ a :: b :: post)[pre.length + 1]? = some b := by
    rw [e]; exact getElemQ_at_prefix (pre ++ [a]) b post _ (by simp)
  have h2 : (pre ++ a :: b :: post).eraseIdx (pre.length + 1) = pre ++ a :: post := by
    rw [e, eraseIdx_at_prefix (pre ++ [a]) b post _ (by simp)]; simp
  simp only [move_up, shift, popPy, h1, h2, insertPy]
  have hi : ((pre.length + 1 : Nat) : Int) + -1 = (pre.length : Int) := by
    push_cast; ring
  rw [hi, if_neg (by omega), Int.toNat_natCast,
    min_eq_left (by simp),
    insertIdx_at_prefix pre b (a :: post) _ rfl]

theorem shift_down_swap {α : Type} (pre : List α) (a b : α) (post : List α) :
    move_down (pre ++ a :: b :: post) pre.length = some (pre ++ b :: a :: post) := by
  have h1 : (pre ++ a :: b :: post)[pre.length]? = some a :=
    getElemQ_at_prefix pre a (b :: post) _ rfl
  have h2 : (pre ++ a :: b :: post).eraseIdx pre.length = pre ++ b :: post :=
    eraseIdx_at_prefix pre a (b :: post) _ rfl
  have e : pre ++ b :: post = (pre ++ [b]) ++ post := by simp
  simp only [move_down, shift, popPy, h1, h2, insertPy]
  have hi : ((pre.length : Nat) : Int) + 1 = ((pre.length + 1 : Nat) : Int) := by
    push_cast; ring
  rw [hi, if_neg (by omega), Int.toNat_natCast,
    min_eq_left (by simp), e,
    insertIdx_at_prefix (pre ++ [b]) a post _ (by simp)]
  simp

theorem shift_down_last {α : Type} (pre : List α) (a : α) :
    move_down (pre ++ [a]) pre.length = some (pre ++ [a]) := by
  have h1 : (pre ++ [a])[pre.length]? = some a :=
    getElemQ_at_prefix pre a [] _ rfl
  have h2 : (pre ++ [a]).eraseIdx pre.length = pre := by
    have := eraseIdx_at_prefix pre a [] pre.length rfl
    simpa using this
  simp only [move_down, shift, popPy, h1, h2, insertPy]
  have hi : ((pre.length : Nat) : Int) + 1 = ((pre.length + 1 : Nat) : Int) := by
    push_cast; ring
  have hmin : min (pre.length + 1) pre.length = pre.length := by omega
  rw [hi, if_neg (by omega), Int.toNat_natCast, hmin]
  have := insertIdx_at_prefix pre a [] pre.length rfl
  simp only [List.append_nil] at this
  rw [this]

theorem shift_up_first {α : Type} (a : α) (ys : List α) (b : α) :
    move_up (a :: ys ++ [b]) 0 = some (ys ++ [a, b]) := by
  have h1 : (a :: ys ++ [b])[0]? = some a := by simp
  have h2 : (a :: ys ++ [b]).eraseIdx 0 = ys ++ [b] := rfl
  simp only [move_up, shift, popPy, h1, h2, insertPy]
  have hi : ((0 : Nat) : Int) + -1 = (-1 : Int) := by ring
  rw [hi, if_pos (by omega)]
  have hlen : (((ys ++ [b]).length : Int) + -1).toNat = ys.length := by
    simp
  rw [hlen, insertIdx_at_prefix ys a [b] _ rfl]

theorem shift_up_single {α : Type} (a : α) : move_up [a] 0 = some [a] := rfl

/-- C3 counterexample: the claim says move-up on the first sibling is a
no-op, but on three siblings it reinserts the first child at the
second-to-last position (Python `insert(-1, ...)`). -/
theorem c3_counterexample :
    move_up [0, 1, 2] 0 = some [1, 0, 2]
      ∧ move_up [0, 1, 2] 0 ≠ some [0, 1, 2] := by decide

/-- C3 (amended): interior moves swap the selection with its immediate
previous/next sibling; move-down on the last sibling is a no-op; but
move-up on the first sibling reinserts it at the second-to-last position
of the remaining list (a no-op only when the parent has at most two
children); none of these raise. -/
theorem c3_shift_boundary :
    (∀ (pre : List Nat) (a b : Nat) (post : List Nat),
      move_up (pre ++ a :: b :: post) (pre.length + 1) = some (pre ++ b :: a :: post))
    ∧ (∀ (pre : List Nat) (a b : Nat) (post : List Nat),
      move_down (pre ++ a :: b :: post) pre.length = some (pre ++ b :: a :: post))
    ∧ (∀ (pre : List Nat) (a : Nat),
      move_down (pre ++ [a]) pre.length = some (pre ++ [a]))
    ∧ (∀ (a : Nat) (ys : List Nat) (b : Nat),
      move_up (a :: ys ++ [b]) 0 = some (ys ++ [a, b]))
    ∧ (∀ a : Nat, move_up [a] 0 = some [a]) :=
  ⟨fun pre a b post => shift_up_swap pre a b post,
   fun pre a b post => shift_down_swap pre a b post,
   fun pre a => shift_down_last pre a,
   fun a ys b => shift_up_first a ys b,
   fun a => shift_up_single a⟩

/-! ## The object-graph model

`Node.delete` and `Node.add_parent` are about parent back-references, so
here Python objects are modelled explicitly: a store maps numeric object
ids to node data, attribute assignment is a store update, and aliasing is
captured by reading the store again after each update, in the statement
order of the source. -/

structure NodeObj where
  label : Option String := none
  value : Option String := none
  children : List Nat := []
  parent : Option Nat := none
deriving DecidableEq

def Store : Type := Nat → NodeObj

def setStore (s : Store) (i : Nat) (d : NodeObj) : Store :=
  fun j => if j = i then d else s j

/-- Python `list.remove`: drops the first occurrence, raises `ValueError`
(`none`) when the element is absent. -/
def removePy (l : List Nat) (x : Nat) : Option (List Nat) :=
  if x ∈ l then some (l.erase x) else none

/-- Python `list.index`: index of the first occurrence, raises
(`none`) when the element is absent. -/
def indexPy (x : Nat) : List Nat → Option Nat
  | [] => none
  | y :: ys => if y = x then some 0 else (indexPy x ys).map (· + 1)

namespace Obj

/-- `Node.delete`: asserts the node has a parent, then removes it from
the parent's children.  The node's own `parent` field is left untouched
by the source. -/
def delete (s : Store) (n : Nat) : Option Store :=
  match (s n).parent with
  | none => none
  | some p =>
    match removePy (s p).children n with
    | none => none
    | some cs => some (setStore s p { s p with children := cs })

/-- `Node.add_child`: asserts the child is parentless, appends it to the
children and sets its parent back-reference. -/
def add_child (s : Store) (p c : Nat) : Option Store :=
  match (s c).parent with
  | some _ => none
  | none =>
    let s1 := setStore s p { s p with children := (s p).children ++ [c] }
    some (setStore s1 c { s1 c with parent := some p })

/-- `Node.add_parent`: asserts the node has a parent and the new parent
has none; replaces the node by the new parent at the node's index among
its siblings, clears the node's parent, then `add_child`s the node under
the new parent. -/
def add_parent (s : Store) (n q : Nat) : Option Store :=
  match (s n).parent with
  | none => none
  | some p =>
    match (s q).parent with
    | some _ => none
    | none =>
      match indexPy n (s p).children with
      | none => none
      | some i =>
        let s1 := setStore s q { s q with parent := some p }
        let s2 := setStore s1 p
          { s1 p with children := insertPy (((s1 p).children).eraseIdx i) (i : Int) q }
        let s3 := setStore s2 n { s2 n with parent := none }
        add_child s3 q n

end Obj

theorem indexPy_at_prefix (n : Nat) (pre post : List Nat) (hpre : n ∉ pre) :
    indexPy n (pre ++ n :: post) = some pre.length := by
  induction pre with
  | nil => simp [indexPy]
  | cons a l ih =>
    have ha : a ≠ n := fun h => hpre (by simp [h])
    have hl : n ∉ l := fun h => hpre (by simp [h])
    simp [indexPy, ha, ih hl]

theorem insertPy_natCast {α : Type} (l : List α) (i : Nat) (x : α)
    (h : i ≤ l.length) : insertPy l (i : Int) x = List.insertIdx i x l := by
  simp only [insertPy]
  rw [if_neg (by omega), Int.toNat_natCast, min_eq_left h]

/-- A two-node store: node 0 is a root whose only child is node 1. -/
def exStore : Store := fun n =>
  if n = 0 then { children := [1] }
  else if n = 1 then { parent := some 0 }
  else {}

/-- C4 counterexample: deleting node 1 from `exStore` succeeds, yet the
deleted node's parent back-reference still points at node 0 instead of
being cleared to absent as the claim states. -/
theorem c4_counterexample :
    (Obj.delete exStore 1).map (fun s2 => (s2 1).parent) = some (some 0)
      ∧ some (some 0) ≠ some (none : Option Nat) := by decide

/-- C4 (amended): deleting a node with a parent removes exactly that node
from the parent's children, keeping the remaining siblings in order, and
touches no other object — in particular the node's own parent
back-reference is left pointing at the former parent, not cleared;
deleting a parentless node is rejected. -/
theorem c4_delete_detach :
    (∀ (s : Store) (n p : Nat) (pre post : List Nat),
      (s n).parent = some p → (s p).children = pre ++ n :: post → n ∉ pre →
      ∃ s2, Obj.delete s n = some s2
        ∧ (s2 p).children = pre ++ post
        ∧ (∀ m, m ≠ p → s2 m = s m)
        ∧ (n ≠ p → (s2 n).parent = some p))
    ∧ (∀ (s : Store) (n : Nat), (s n).parent = none → Obj.delete s n = none) := by
  constructor
  · intro s n p pre post hpar hch hpre
    have hmem : n ∈ (s p).children := by
      rw [hch]; exact List.mem_append_right _ (List.mem_cons_self _ _)
    have herase : ((s p).children).erase n = pre ++ post := by
      rw [hch, List.erase_append_right _ (by simpa using hpre),
        List.erase_cons_head]
    refine ⟨setStore s p { s p with children := pre ++ post }, ?_, ?_, ?_, ?_⟩
    · simp [Obj.delete, hpar, removePy, hmem, herase]
    · simp [setStore]
    · intro m hm; simp [setStore, hm]
    · intro hnp; simp [setStore, hnp, hpar]
  · intro s n h
    simp [Obj.delete, h]

/-- Witness for `c4_delete_detach`: both parts applied to the concrete
two-node store. -/
theorem c4_delete_detach_witness :
    ((exStore 1).parent = some 0 ∧ (exStore 0).children = [] ++ 1 :: []
        ∧ (1 : Nat) ∉ ([] : List Nat))
    ∧ (∃ s2, Obj.delete exStore 1 = some s2
        ∧ (s2 0).children = [] ++ []
        ∧ (∀ m, m ≠ 0 → s2 m = exStore m)
        ∧ ((1 : Nat) ≠ 0 → (s2 1).parent = some 0))
    ∧ Obj.delete exStore 2 = none :=
  ⟨⟨by decide, by decide, by decide⟩,
    c4_delete_detach.1 exStore 1 0 [] [] (by decide) (by decide) (by decide),
    c4_delete_detach.2 exStore 2 (by decide)⟩

theorem add_parent_eq (s : Store) (n p q i : Nat)
    (hn : (s n).parent = some p) (hq : (s q).parent = none)
    (hidx : indexPy n (s p).children = some i)
    (hqp : q ≠ p) (hqn : q ≠ n) (hnp : n ≠ p) :
    Obj.add_parent s n q = some (fun m =>
      if m = n then { s n with parent := some q }
      else if m = q then
        { s q with parent := some p, children := (s q).children ++ [n] }
      else if m = p then
        { s p with children := insertPy (((s p).children).eraseIdx i) (i : Int) q }
      else s m) := by
  have hnq : n ≠ q := fun h => hqn h.symm
  have hpq : p ≠ q := fun h => hqp h.symm
  have hpn : p ≠ n := fun h => hnp h.symm
  simp only [Obj.add_parent, hn, hq, hidx, Obj.add_child, setStore,
    if_pos rfl, hnq, if_neg hnq, if_neg hpn, if_neg hqn, if_neg hqp,
    if_neg hnp, if_neg hpq]
  refine congrArg some (funext fun m => ?_)
  by_cases hm1 : m = n
  · subst hm1
    simp [setStore, hnq, hnp]
  · by_cases hm2 : m = q
    · subst hm2
      simp [setStore, hqn, hqp]
    · by_cases hm3 : m = p
      · subst hm3
        simp [setStore, hpn, hpq]
      · simp [setStore, hm1, hm2, hm3]

/-- A four-node store: root 0 with child 1; separately, parentless node 2
with child 3. -/
def exStore8 : Store := fun n =>
  if n = 0 then { children := [1] }
  else if n = 1 then { parent := some 0 }
  else if n = 2 then { children := [3] }
  else if n = 3 then { parent := some 2 }
  else {}

/-- C8 counterexample: inserting the parentless node 2 (which already has
child 3) above node 1 succeeds, but node 1 is appended after 3 — it is
not the only child of its new parent, contrary to the claim. -/
theorem c8_counterexample :
    (Obj.add_parent exStore8 1 2).map (fun s4 => (s4 2).children) = some [3, 1]
      ∧ some [3, 1] ≠ some ([1] : List Nat) := by decide

/-- C8 (amended): for a node N at index i of parent P and a parentless
node Q (distinct from P and N), `add_parent` puts Q at index i of P's
children preserving the other siblings, appends N to Q's children (so N
is the sole child only when Q had none), sets Q's parent to P and N's
parent to Q, and touches nothing else; it fails when N has no parent or
when Q already has one. -/
theorem c8_insert_parent :
    (∀ (s : Store) (n p q : Nat) (pre post : List Nat),
      (s n).parent = some p → (s q).parent = none →
      (s p).children = pre ++ n :: post → n ∉ pre →
      q ≠ p → q ≠ n → n ≠ p →
      ∃ s4, Obj.add_parent s n q = some s4
        ∧ (s4 p).children = pre ++ q :: post
        ∧ (s4 q).children = (s q).children ++ [n]
        ∧ (s4 q).parent = some p
        ∧ (s4 n).parent = some q
        ∧ (∀ m, m ≠ p → m ≠ q → m ≠ n → s4 m = s m))
    ∧ (∀ (s : Store) (n q : Nat),
        (s n).parent = none → Obj.add_parent s n q = none)
    ∧ (∀ (s : Store) (n q p r : Nat),
        (s n).parent = some p → (s q).parent = some r →
        Obj.add_parent s n q = none) := by
  refine ⟨?_, ?_, ?_⟩
  · intro s n p q pre post hn hq hch hpre hqp hqn hnp
    have hpn : p ≠ n := fun h => hnp h.symm
    have hpq : p ≠ q := fun h => hqp h.symm
    have hnq : n ≠ q := fun h => hqn h.symm
    have hidx : indexPy n (s p).children = some pre.length := by
      rw [hch]; exact indexPy_at_prefix n pre post hpre
    refine ⟨_, add_parent_eq s n p q pre.length hn hq hidx hqp hqn hnp,
      ?_, ?_, ?_, ?_, ?_⟩
    · simp only [if_neg hpn, if_neg hpq, if_pos rfl]
      rw [hch, eraseIdx_at_prefix pre n post _ rfl,
        insertPy_natCast _ _ _ (by simp),
        insertIdx_at_prefix pre q post _ rfl]
      simp
    · simp [hqn, hqp]
    · simp [hqn, hqp]
    · simp
    · intro m hmp hmq hmn
      simp [hmn, hmq, hmp]
  · intro s n q h
    simp [Obj.add_parent, h]
  · intro s n q p r h1 h2
    simp [Obj.add_parent, h1, h2]

/-- Witness for `c8_insert_parent`: all three parts applied to the
concrete four-node store. -/
theorem c8_insert_parent_witness :
    ((exStore8 1).parent = some 0 ∧ (exStore8 2).parent = none
        ∧ (exStore8 0).children = [] ++ 1 :: [] ∧ (1 : Nat) ∉ ([] : List Nat)
        ∧ (2 : Nat) ≠ 0 ∧ (2 : Nat) ≠ 1 ∧ (1 : Nat) ≠ 0)
    ∧ (∃ s4, Obj.add_parent exStore8 1 2 = some s4
        ∧ (s4 0).children = [] ++ 2 :: []
        ∧ (s4 2).children = (exStore8 2).children ++ [1]
        ∧ (s4 2).parent = some 0
        ∧ (s4 1).parent = some 2
        ∧ (∀ m, m ≠ 0 → m ≠ 2 → m ≠ 1 → s4 m = exStore8 m))
    ∧ Obj.add_parent exStore8 0 2 = none
    ∧ Obj.add_parent exStore8 1 3 = none :=
  ⟨⟨by decide, by decide, by decide, by decide, by decide, by decide, by decide⟩,
    c8_insert_parent.1 exStore8 1 0 2 [] [] (by decide) (by decide) (by decide)
      (by decide) (by decide) (by decide) (by decide),
    c8_insert_parent.2.1 exStore8 0 2 (by decide),
    c8_insert_parent.2.2 exStore8 1 3 0 2 (by decide) (by decide)⟩

/-! ## Documents and the persistence codec (`Tree`)

The container is a compressed archive with two JSON entries; we model it
as already-tokenized data: an optional manifest record (a key/value list,
`none` when the entry is missing, which the source surfaces as a caught
`KeyError`) and an optional structural record.  Python `dict.update`,
`str.split(".")` and `int` are embedded structurally below. -/

def version : String := "1.0.0rc3"

def DEFAULT_MANIFEST : List (String × String) := [("version", version)]

/-- Python dict assignment `d[k] = v` on an association list: overwrite
an existing binding in place, else append. -/
def setKey (l : List (String × String)) (k v : String) :
    List (String × String) :=
  if (l.lookup k).isSome then l.map (fun kv => if kv.1 = k then (k, v) else kv)
  else l ++ [(k, v)]

/-- Python `base.update(upd)`. -/
def updateDict (base upd : List (String × String)) : List (String × String) :=
  upd.foldl (fun acc kv => setKey acc kv.1 kv.2) base

/-- Python `str.split(sep)` for a one-character separator. -/
def splitChar (sep : Char) : List Char → List (List Char)
  | [] => [[]]
  | c :: rest =>
    let r := splitChar sep rest
    if c = sep then [] :: r
    else
      match r with
      | [] => [[c]]
      | h :: t => (c :: h) :: t

/-- Python `int(s)` on canonical inputs: an optional sign followed by
decimal digits; anything else raises `ValueError` (`none`). -/
def natOfDigits (l : List Char) : Option Nat :=
  if l = [] then none
  else if l.all Char.isDigit then
    some (l.foldl (fun acc c => acc * 10 + (c.toNat - 48)) 0)
  else none

def intPy (s : String) : Option Int :=
  match s.data with
  | [] => none
  | c :: ds =>
    if c = '-' then (natOfDigits ds).map (fun n => -(n : Int))
    else if c = '+' then (natOfDigits ds).map (fun n => (n : Int))
    else (natOfDigits (c :: ds)).map (fun n => (n : Int))

/-- `int(v.split(".")[0])`: the major component of a version string. -/
def majorOf (v : String) : Option Int :=
  intPy (String.mk ((splitChar '.' v.data).headD []))

inductive LoadError where
| tooNew (required : String)
| damaged
| badVersion

structure Container where
  manifest : Option (List (String × String))
  tree : Option Dict

structure TreeState where
  dirty : Bool
  last_path : String
  selection : Option (List Nat)
  manifest : List (String × String)
  root : Option Node

/-- `Tree()` without a path: an empty document. -/
def Tree.new : TreeState :=
  { dirty := false, last_path := "", selection := none,
    manifest := DEFAULT_MANIFEST, root := none }

/-- `Tree(path)` with a container: the manifest entry is read and merged
over the default manifest (`KeyError`/`BadZipFile` become the coarse
`damaged` error), the major components are compared (`int` failure is an
uncaught `ValueError`, kept distinct as `badVersion`), a too-new major
aborts before the structural record is read, and otherwise the structural
record is decoded into the root. -/
def load (path : String) (c : Container) : Except LoadError TreeState :=
  match c.manifest with
  | none => .error .damaged
  | some m =>
    let manifest := updateDict DEFAULT_MANIFEST m
    match majorOf version with
    | none => .error .badVersion
    | some my_major =>
      match manifest.lookup "version" with
      | none => .error .damaged
      | some v =>
        match majorOf v with
        | none => .error .badVersion
        | some their_major =>
          if my_major < their_major then
            .error (.tooNew (toString their_major ++ ".0.0"))
          else
            match c.tree with
            | none => .error .damaged
            | some d =>
              .ok { dirty := false, last_path := path, selection := none,
                    manifest := manifest, root := some (from_dict d) }

/-- Python `str.endswith`, structurally. -/
def endsWithPy (s suffix : String) : Bool :=
  List.isSuffixOf suffix.data s.data

inductive SaveFail where
| noLastPath
| noRoot

structure SavedContainer where
  tree : Dict
  manifest : List (String × String)

inductive SaveOutcome where
| container (saved : SavedContainer) (after : TreeState)
| gvExport
| pngExport

/-- `Tree.save`: empty path falls back to the last path (error if none);
`.gv`/`.png` paths delegate to the external graphviz renderer; otherwise
the container is written with the root's record and the manifest as held,
and the document becomes clean with the new last path.  (`noRoot` models
the `AttributeError` of `self.root.to_dict()` on an empty tree.) -/
def save (t : TreeState) (path : String) : Except SaveFail SaveOutcome :=
  let path2 := if path = "" then t.last_path else path
  if path2 = "" then .error .noLastPath
  else if endsWithPy path2 ".gv" then .ok .gvExport
  else if endsWithPy path2 ".png" then .ok .pngExport
  else
    match t.root with
    | none => .error .noRoot
    | some r =>
      .ok (.container { tree := Node.to_dict r, manifest := t.manifest }
        { t with dirty := false, last_path := path2 })

theorem majorOf_version : majorOf version = some 1 := by decide

/-- A container carrying an older version string and a minimal
structural record. -/
def exC6 : Container :=
  ⟨some [("version", "0.9.0")], some (Dict.mk none none none)⟩

/-- The document state obtained by loading `exC6`. -/
def exLoaded : TreeState :=
  { dirty := false, last_path := "f.tm", selection := none,
    manifest := [("version", "0.9.0")], root := some (Node.mk none none []) }

/-- C6 counterexample: loading a container whose manifest carries version
0.9.0 succeeds (same major), and saving the resulting document writes
0.9.0 — the loaded version, not the running codec's version — into the
persisted manifest. -/
theorem c6_counterexample :
    load "f.tm" exC6 = .ok exLoaded
      ∧ save exLoaded "f.tm"
        = .ok (.container
            { tree := Dict.mk none none (some []),
              manifest := [("version", "0.9.0")] } exLoaded)
      ∧ some "0.9.0" ≠ some version :=
  ⟨rfl, rfl, by decide⟩

/-- C6 (amended): a container save writes the manifest exactly as held by
the document; that manifest carries the running codec's version for a
fresh document, but for a loaded document it is the default manifest
overridden by the loaded one — so a loaded version field is persisted
as-is rather than replaced by the codec's own version. -/
theorem c6_save_manifest :
    (∀ (t : TreeState) (path : String) (saved : SavedContainer)
        (after : TreeState),
      save t path = .ok (.container saved after) → saved.manifest = t.manifest)
    ∧ Tree.new.manifest.lookup "version" = some version
    ∧ (∀ (path : String) (c : Container) (m : List (String × String))
        (t : TreeState),
      c.manifest = some m → load path c = .ok t →
      t.manifest = updateDict DEFAULT_MANIFEST m) := by
  refine ⟨?_, by decide, ?_⟩
  · intro t path saved after h
    simp only [save] at h
    repeat' split at h
    all_goals cases h
    all_goals rfl
  · intro path c m t hm hl
    obtain ⟨cm, ct⟩ := c
    simp only at hm
    subst hm
    simp only [load, majorOf_version] at hl
    rcases hv : (updateDict DEFAULT_MANIFEST m).lookup "version" with _ | v <;>
      simp only [hv] at hl
    · cases hl
    · rcases hMv : majorOf v with _ | M <;> simp only [hMv] at hl
      · cases hl
      · split at hl
        · cases hl
        · rcases ct with _ | d
          · cases hl
          · cases hl
            rfl

/-- Witness for `c6_save_manifest`: the universally quantified parts
applied to the concrete loaded document and container. -/
theorem c6_save_manifest_witness :
    (save exLoaded "f.tm"
        = .ok (.container
            { tree := Dict.mk none none (some []),
              manifest := [("version", "0.9.0")] } exLoaded)
      ∧ ({ tree := Dict.mk none none (some []),
            manifest := [("version", "0.9.0")] } : SavedContainer).manifest
          = exLoaded.manifest)
    ∧ (exC6.manifest = some [("version", "0.9.0")]
      ∧ load "f.tm" exC6 = .ok exLoaded
      ∧ exLoaded.manifest = updateDict DEFAULT_MANIFEST [("version", "0.9.0")]) :=
  ⟨⟨rfl, c6_save_manifest.1 exLoaded "f.tm" _ _ rfl⟩,
    ⟨rfl, rfl, c6_save_manifest.2.2 "f.tm" exC6 [("version", "0.9.0")]
      exLoaded rfl rfl⟩⟩

/-- C9: loading fails with the too-new flavour of
`IncompatibleFormatError` exactly when the container's major version
exceeds the codec's major version 1 — and it does so whatever the
structural record holds, i.e. without reading it; with an equal or lower
major (any minor/patch) and a present structural record the load
succeeds. -/
theorem c9_version_gate :
    ∀ (path : String) (m : List (String × String)) (v : String) (M : Int)
      (d : Dict),
      (updateDict DEFAULT_MANIFEST m).lookup "version" = some v →
      majorOf v = some M →
      ((1 < M → ∀ tr : Option Dict,
          load path ⟨some m, tr⟩ = .error (.tooNew (toString M ++ ".0.0")))
        ∧ (M ≤ 1 →
          load path ⟨some m, some d⟩
            = .ok { dirty := false, last_path := path, selection := none,
                    manifest := updateDict DEFAULT_MANIFEST m,
                    root := some (from_dict d) })
        ∧ ((∃ req, load path ⟨some m, some d⟩ = .error (.tooNew req)) ↔ 1 < M)) := by
  intro path m v M d hv hM
  refine ⟨?_, ?_, ?_, ?_⟩
  · intro h1 tr
    simp only [load, majorOf_version, hv, hM, if_pos h1]
  · intro h1
    simp only [load, majorOf_version, hv, hM, if_neg (not_lt.mpr h1)]
  · rintro ⟨req, hreq⟩
    by_contra hnot
    push_neg at hnot
    simp only [load, majorOf_version, hv, hM, if_neg (not_lt.mpr hnot)] at hreq
    cases hreq
  · intro h1
    exact ⟨toString M ++ ".0.0",
      by simp only [load, majorOf_version, hv, hM, if_pos h1]⟩

/-- A too-new container (major 2) and a same-major one (0.9.5). -/
def exC9new : List (String × String) := [("version", "2.0.0")]

def exC9old : List (String × String) := [("version", "0.9.5")]

/-- Witness for `c9_version_gate`: applied to a major-2 container (which
is rejected even with the structural record absent) and to a major-0
container (which loads). -/
theorem c9_version_gate_witness :
    ((updateDict DEFAULT_MANIFEST exC9new).lookup "version" = some "2.0.0"
      ∧ (updateDict DEFAULT_MANIFEST exC9old).lookup "version" = some "0.9.5"
      ∧ majorOf "2.0.0" = some 2 ∧ majorOf "0.9.5" = some 0)
    ∧ load "p" ⟨some exC9new, none⟩ = .error (.tooNew (toString (2 : Int) ++ ".0.0"))
    ∧ load "p" ⟨some exC9old, some (Dict.mk none none none)⟩
        = .ok { dirty := false, last_path := "p", selection := none,
                manifest := updateDict DEFAULT_MANIFEST exC9old,
                root := some (from_dict (Dict.mk none none none)) } :=
  ⟨⟨by decide, by decide, by decide, by decide⟩,
    (c9_version_gate "p" exC9new "2.0.0" 2 (Dict.mk none none none)
      (by decide) (by decide)).1 (by decide) none,
    (c9_version_gate "p" exC9old "0.9.5" 0 (Dict.mk none none none)
      (by decide) (by decide)).2.1 (by decide)⟩

/-! ## `Tree.copy` and the shared pasteboard -/

/-- Look up the node a selection path refers to (the Python selection is
a direct object reference; a path into the root models it purely). -/
def getAt : List Nat → Node → Option Node
  | [], n => some n
  | i :: rest, n =>
    match (Node.children n)[i]? with
    | none => none
    | some c => getAt rest c

inductive SelError where
| noSelection

/-- `Tree.copy`: raises `SelectionError` without a selection; otherwise
overwrites the process-wide pasteboard slot with the serialized selected
subtree.  The two inner `noSelection` fallbacks are unreachable under the
selection-validity invariant (a Python selection is always a node of the
tree). -/
def Tree.copy (t : TreeState) (pb : Option Dict) :
    Except SelError (TreeState × Option Dict) :=
  match t.selection with
  | none => .error .noSelection
  | some path =>
    match t.root with
    | none => .error .noSelection
    | some r =>
      match getAt path r with
      | none => .error .noSelection
      | some sel => .ok (t, some (Node.to_dict sel))

/-- C10: with a valid selection, `copy` leaves every document field (root
tree, selection, dirty flag, manifest, last path) unchanged and only
overwrites the pasteboard with the serialized selected subtree. -/
theorem c10_copy_frame :
    ∀ (t : TreeState) (pb : Option Dict) (path : List Nat) (r sel : Node),
      t.selection = some path → t.root = some r → getAt path r = some sel →
      ∃ t2 pb2, Tree.copy t pb = .ok (t2, pb2)
        ∧ t2.root = t.root ∧ t2.selection = t.selection ∧ t2.dirty = t.dirty
        ∧ t2.manifest = t.manifest ∧ t2.last_path = t.last_path
        ∧ pb2 = some (Node.to_dict sel) := by
  intro t pb path r sel hs hr hg
  refine ⟨t, some (Node.to_dict sel), ?_, rfl, rfl, rfl, rfl, rfl, rfl⟩
  simp only [Tree.copy, hs, hr, hg]

/-- A one-node document with the root selected, for the copy witness. -/
def exDoc : TreeState :=
  { dirty := true, last_path := "d", selection := some [],
    manifest := DEFAULT_MANIFEST, root := some (Node.mk (some "TP") none []) }

/-- Witness for `c10_copy_frame`: applied to the concrete one-node
document with a stale pasteboard. -/
theorem c10_copy_frame_witness :
    (exDoc.selection = some [] ∧ exDoc.root = some (Node.mk (some "TP") none [])
      ∧ getAt [] (Node.mk (some "TP") none []) = some (Node.mk (some "TP") none []))
    ∧ (∃ t2 pb2, Tree.copy exDoc (some (Dict.mk none none none)) = .ok (t2, pb2)
        ∧ t2.root = exDoc.root ∧ t2.selection = exDoc.selection
        ∧ t2.dirty = exDoc.dirty ∧ t2.manifest = exDoc.manifest
        ∧ t2.last_path = exDoc.last_path
        ∧ pb2 = some (Node.to_dict (Node.mk (some "TP") none []))) :=
  ⟨⟨rfl, rfl, rfl⟩,
    c10_copy_frame exDoc (some (Dict.mk none none none)) [] _ _ rfl rfl rfl⟩

end Treemendous
